import Mathlib

/-!
Verification of the repository-analysis and documentation-section extraction
pipeline of `repo_documenter`.

Strings are modelled as lists of characters (`Str`).  Python regular
expressions are modelled by executable functions that implement the exact
matching semantics of the concrete patterns appearing in the source
(`re.search` with `re.DOTALL | re.MULTILINE`): leftmost match, greedy
quantifiers with backtracking, lazy capture groups, and `$` matching at every
line end (because of `re.MULTILINE`).  File-system writes are modelled by an
explicit list of (path, content) pairs together with a failure oracle telling
which write raises, mirroring the `try ... except` boundary of
`save_documentation`.
-/

set_option maxRecDepth 4000
set_option maxHeartbeats 1000000

abbrev Str := List Char

/-- Python `str.lower`, character-wise (ASCII range suffices here). -/
def lowerStr (x : Str) : Str := x.map Char.toLower

/-- Python `needle in hay`: contiguous substring occurrence. -/
def strIn (needle : Str) : Str → Bool
  | [] => needle.isEmpty
  | c :: t => needle.isPrefixOf (c :: t) || strIn needle t

/-- Python `part.startswith('.')`. -/
def startsWithDot (p : Str) : Bool :=
  match p with
  | '.' :: _ => true
  | _ => false

/-- A dict `{"path": ..., "content": ...}` as appended by `analyze_repository`. -/
structure SampledFile where
  path : Str
  content : Str
deriving DecidableEq

/-- One regular file seen by the `os.walk` traversal: the `Path(root).parts`
of its directory, its bare file name, its path relative to the repository
root, and `some content` when it decodes as UTF-8 (`none` models
`UnicodeDecodeError`/`IOError`, which makes the walk skip the file). -/
structure FSFile where
  dirParts : List Str
  name : Str
  relPath : Str
  content : Option Str
deriving DecidableEq

def source_patterns : List Str :=
  [".py".data, ".js".data, ".ts".data, ".java".data, ".go".data, ".rb".data,
   ".php".data, ".cs".data]

def config_patterns : List Str :=
  [".json".data, ".yaml".data, ".yml".data, ".env".data, ".config".data,
   ".toml".data]

def readme_patterns : List Str :=
  ["README.md".data, "README".data, "readme.md".data]

/-- `any(rel_path.endswith(ext) for ext in source_patterns)`. -/
def isSourcePath (x : Str) : Bool :=
  source_patterns.any (fun p => p.isSuffixOf x)

/-- `any(rel_path.endswith(ext) for ext in config_patterns)`. -/
def isConfigPath (x : Str) : Bool :=
  config_patterns.any (fun p => p.isSuffixOf x)

/-- `file in readme_patterns`. -/
def isReadmeName (n : Str) : Bool := readme_patterns.contains n

/-- The three category lists filled by the walk loop of `analyze_repository`. -/
structure Collected where
  source_files : List SampledFile
  config_files : List SampledFile
  readme_files : List SampledFile
deriving DecidableEq

/-- The file-categorisation loop of `analyze_repository` (lines 43-74): skip
files under a directory with a dot-prefixed path segment, skip unreadable
files, then the `if/elif/elif` classification on `rel_path` / `file`. -/
def collectFiles : List FSFile → Collected
  | [] => ⟨[], [], []⟩
  | f :: rest =>
    let r := collectFiles rest
    if f.dirParts.any startsWithDot then r
    else
      match f.content with
      | none => r
      | some c =>
        if isSourcePath f.relPath then
          ⟨⟨f.relPath, c⟩ :: r.source_files, r.config_files, r.readme_files⟩
        else if isConfigPath f.relPath then
          ⟨r.source_files, ⟨f.relPath, c⟩ :: r.config_files, r.readme_files⟩
        else if isReadmeName f.name then
          ⟨r.source_files, r.config_files, ⟨f.relPath, c⟩ :: r.readme_files⟩
        else r

/-- CPython `os.path.splitext(p)[1]` (posix): the extension starts at the last
dot of the basename, unless every character of the basename before that dot is
itself a dot (leading dots do not start an extension). -/
def splitextExt (p : Str) : Str :=
  let base := (p.reverse.takeWhile (fun c => c ≠ '/')).reverse
  let afterRev := base.reverse.takeWhile (fun c => c ≠ '.')
  if afterRev.length = base.length then []
  else
    let pre := base.take (base.length - afterRev.length - 1)
    if pre.any (fun c => c ≠ '.') then '.' :: afterRev.reverse else []

/-- The `if ext in [...]` chain of `detect_main_technology`. -/
def techOf (ext : Str) : Option Str :=
  if ext ∈ [".py".data] then some ("Python".data)
  else if ext ∈ [".js".data, ".jsx".data] then some ("JavaScript".data)
  else if ext ∈ [".ts".data, ".tsx".data] then some ("TypeScript".data)
  else if ext ∈ [".java".data] then some ("Java".data)
  else if ext ∈ [".go".data] then some ("Go".data)
  else if ext ∈ [".rb".data] then some ("Ruby".data)
  else if ext ∈ [".php".data] then some ("PHP".data)
  else if ext ∈ [".cs".data] then some ("C#".data)
  else none

/-- `tech_counts[k] = tech_counts.get(k, 0) + 1` on an insertion-ordered dict,
modelled as an association list: increment the first binding of `k`, or append
a fresh binding at the end. -/
def bumpTech : List (Str × Nat) → Str → List (Str × Nat)
  | [], k => [(k, 1)]
  | (k', c) :: rest, k =>
    if k' = k then (k', c + 1) :: rest else (k', c) :: bumpTech rest k

/-- The counting loop of `detect_main_technology`. -/
def tallyTech (source_files : List SampledFile) : List (Str × Nat) :=
  source_files.foldl
    (fun m f =>
      match techOf (splitextExt f.path) with
      | some t => bumpTech m t
      | none => m)
    []

/-- Python `max(items, key=lambda x: x[1])`: fold keeping the current best,
replaced only on a strictly greater count, so the first maximum wins. -/
def maxByCount (x : Str × Nat) (rest : List (Str × Nat)) : Str × Nat :=
  rest.foldl (fun best y => if best.2 < y.2 then y else best) x

/-- `detect_main_technology` (documentation.py lines 106-132). -/
def detect_main_technology (source_files : List SampledFile) : Str :=
  match tallyTech source_files with
  | [] => "Unknown".data
  | x :: rest => (maxByCount x rest).1

/-- The value bound to the `"main_readme"` key: either a sampled file or the
sentinel dict `{"content": "No README found"}`. -/
inductive MainReadme where
  | file (f : SampledFile)
  | sentinel
deriving DecidableEq

/-- The `.get("content", ...)` access used by the prompt builder. -/
def mainReadmeContent : MainReadme → Str
  | .file f => f.content
  | .sentinel => "No README found".data

/-- The main-README selection loop of `analyze_repository` (lines 76-83). -/
def findRootReadme : List SampledFile → Option SampledFile
  | [] => none
  | r :: rest =>
    if r.path = "README.md".data then some r else findRootReadme rest

def mainReadmeOf (readme_files : List SampledFile) : MainReadme :=
  match findRootReadme readme_files with
  | some r => .file r
  | none =>
    match readme_files with
    | r :: _ => .file r
    | [] => .sentinel

/-- The `project_structure` dict (lines 86-95). -/
structure ProjectStructure where
  total_files : Nat
  source_files : Nat
  config_files : Nat
  readme_files : Nat
  has_docker : Bool
  has_tests : Bool
  has_docs : Bool
  main_tech : Str
deriving DecidableEq

/-- The dict returned by `analyze_repository` (lines 97-104). -/
structure Analysis where
  files : List SampledFile
  source_files : List SampledFile
  config_files : List SampledFile
  readme_files : List SampledFile
  main_readme : MainReadme
  project_structure : ProjectStructure
deriving DecidableEq

/-- `analyze_repository` (documentation.py lines 27-104), over the list of
regular files produced by `os.walk` in traversal order. -/
def analyze_repository (tree : List FSFile) : Analysis :=
  let c := collectFiles tree
  { files := c.source_files ++ c.config_files ++ c.readme_files
    source_files := c.source_files
    config_files := c.config_files
    readme_files := c.readme_files
    main_readme := mainReadmeOf c.readme_files
    project_structure :=
      { total_files :=
          c.source_files.length + c.config_files.length + c.readme_files.length
        source_files := c.source_files.length
        config_files := c.config_files.length
        readme_files := c.readme_files.length
        has_docker :=
          c.config_files.any (fun f => "Dockerfile".data.isSuffixOf f.path)
        has_tests :=
          c.source_files.any (fun f => strIn ("test".data) (lowerStr f.path))
        has_docs :=
          c.readme_files.any (fun f => strIn ("docs".data) (lowerStr f.path))
        main_tech := detect_main_technology c.source_files } }

/-- Decimal rendering of a count interpolated into the prompt f-string. -/
def natStr (n : Nat) : Str := (Nat.repr n).data

/-- `"Yes" if flag else "No"`. -/
def yesNo (b : Bool) : Str := if b then ("Yes".data) else ("No".data)

/-- `chr(10).join(...)`. -/
def joinLines (items : List Str) : Str := List.intercalate ("\n".data) items

/-- `f"- {file['path']}"`. -/
def pathLine (f : SampledFile) : Str := "- ".data ++ f.path

/-- The opening f-string of `create_documentation_prompt` (claude.py lines
56-84). -/
def promptHeader (repo_name : Str) (a : Analysis) : Str :=
  "\n# Repository Documentation Task: ".data ++ repo_name
  ++ "\n\n## Project Overview\n\nRepository Name: ".data ++ repo_name
  ++ "\nMain Technology: ".data ++ a.project_structure.main_tech
  ++ "\nTotal Files: ".data ++ natStr a.project_structure.total_files
  ++ "\nSource Files: ".data ++ natStr a.project_structure.source_files
  ++ "\nConfiguration Files: ".data ++ natStr a.project_structure.config_files
  ++ "\nHas Docker: ".data ++ yesNo a.project_structure.has_docker
  ++ "\nHas Tests: ".data ++ yesNo a.project_structure.has_tests
  ++ "\nHas Existing Docs: ".data ++ yesNo a.project_structure.has_docs
  ++ "\n\n## Current README Content\n\n".data ++ mainReadmeContent a.main_readme
  ++ "\n\n## Repository Structure\n\n### Source Files:\n".data
  ++ joinLines (a.source_files.map pathLine)
  ++ "\n\n### Config Files:\n".data
  ++ joinLines (a.config_files.map pathLine)
  ++ "\n\n## Key Source Files Content\n\n".data

def interest_keywords : List Str :=
  ["main".data, "index".data, "app".data, "server".data, "config".data,
   "model".data, "type".data, "interface".data, "service".data]

/-- `any(pattern in file["path"].lower() for pattern in [...])`. -/
def isInterestFile (f : SampledFile) : Bool :=
  interest_keywords.any (fun p => strIn p (lowerStr f.path))

/-- The per-source-file fragment appended by the loop at claude.py lines
87-93: nothing for files without an interest keyword, otherwise a fenced
excerpt truncated to 3000 characters with an ellipsis iff truncation lost
text. -/
def sourceSnippet (f : SampledFile) : Str :=
  if isInterestFile f then
    "\n### ".data ++ f.path ++ "\n```\n".data ++ f.content.take 3000
      ++ (if 3000 < f.content.length then ("...".data) else [])
      ++ "\n```\n".data
  else []

/-- The per-config-file fragment appended by the loop at claude.py lines
97-100 (no keyword filter, truncation at 1500 characters). -/
def configSnippet (f : SampledFile) : Str :=
  "\n### ".data ++ f.path ++ "\n```\n".data ++ f.content.take 1500
    ++ (if 1500 < f.content.length then ("...".data) else [])
    ++ "\n```\n".data

/-- The constant instruction block appended at claude.py lines 102-193. -/
def promptTail : Str :=
  ("\n## Required Documentation Sections\n\nPlease create comprehensive documentation with the following sections. Each section should be detailed and include real examples from the code:\n\n1. ## Getting Started Guide\n\nCreate a practical guide that includes:\n- Prerequisites and system requirements (based on package.json, requirements.txt, etc.)\n- Step-by-step installation instructions\n- Configuration setup with real examples\n- Environment variables setup\n- Basic usage examples using real code from the repository\n- Development setup instructions\n- Common issues and solutions\n\n2. ## Data Models Documentation\n\nDocument all data structures including:\n- Database schemas and models\n- TypeScript/JavaScript interfaces and types\n- API request/response models\n- Data validation rules\n- Example data structures\n- Entity relationships (with Mermaid ER diagrams)\n- Data flow between components\n\n3. ## Flow Charts\n\nCreate detailed diagrams using Mermaid syntax for:\n- Application workflow\n- Request/response flow\n- Data processing pipelines\n- State management\n- Component interactions\n- Authentication/authorization flow\n- Error handling flow\n\nExample Mermaid diagram:\n```mermaid\nsequenceDiagram\n    participant Client\n    participant API\n    participant Database\n    Client->>API: Request\n    API->>Database: Query\n    Database-->>API: Response\n    API-->>Client: Result\n```\n\n4. ## Architecture Overview\n\nProvide a comprehensive overview including:\n- System architecture (with Mermaid diagram)\n- Component breakdown\n- Design patterns used\n- Security measures\n- Performance optimizations\n- Integration points\n- Deployment architecture\n- Scalability considerations\n- Error handling strategy\n\n5. ## FAQs\n\nCreate a practical FAQ section covering:\n- Common development questions\n- Troubleshooting guide\n- Best practices\n- Performance tips\n- Security guidelines\n- Known issues and workarounds\n- Deployment considerations\n- Maintenance procedures\n\nFormat your response as a complete Markdown document. Use proper headings, code blocks, and Mermaid diagrams. Focus on practical, actionable information that will help developers understand and work with the codebase.\n\n## Important Notes\n\n1. Use actual code examples from the repository\n2. Create accurate Mermaid diagrams based on the code structure\n3. Include security and performance considerations\n4. Add troubleshooting guides for common issues\n5. Make the documentation practical and actionable\n6. Structure the content with clear headings\n7. Include configuration examples\n8. Add code snippets for common tasks\n9. Reference actual file paths and components\n10. Explain architectural decisions and trade-offs\n\nBegin your response with the Getting Started Guide section.\n").data

/-- `create_documentation_prompt` (claude.py lines 47-195). -/
def create_documentation_prompt (repo_name : Str) (repo_analysis : Analysis) : Str :=
  let afterSources :=
    repo_analysis.source_files.foldl (fun acc f => acc ++ sourceSnippet f)
      (promptHeader repo_name repo_analysis)
  let afterConfigs :=
    repo_analysis.config_files.foldl (fun acc f => acc ++ configSnippet f)
      (afterSources ++ "\n## Configuration Files\n".data)
  afterConfigs ++ promptTail

/-- `generate_documentation` (claude.py lines 7-45): the collaborator call is
modelled by its outcome, `Except.ok text` for a successful response and
`Except.error e` (with `e = str(exception)`) when the call raises.  The
`except` branch substitutes the failure document. -/
def generate_documentation (response : Except Str Str) : Str :=
  match response with
  | .ok text => text
  | .error e => "# Documentation Generation Failed\n\nError: ".data ++ e

/-- Python `\s` over the characters that occur here (`[ \t\n\r\v\f]`). -/
def wsChar (c : Char) : Bool :=
  c == ' ' || c == '\t' || c == '\n' || c == '\r'
    || c == Char.ofNat 11 || c == Char.ofNat 12

/-- Matching of the heading part `#+\s*TITLE\s*\n` of a section pattern at a
fixed position: a maximal run of `#` (at least one), maximal whitespace, the
literal title, then `\s*\n` — greedy with backtracking, so the heading
consumes the trailing whitespace run up to and including its *last* newline
(confirming that blank lines after a heading belong to the heading, not to
the captured group).  Returns the remainder at which group 1 starts, or
`none` when the pattern cannot match here. -/
def matchHeadingAt (title : Str) (x : Str) : Option Str :=
  match x with
  | '#' :: rest =>
    let afterHash := rest.dropWhile (fun c => c == '#')
    let afterWs := afterHash.dropWhile wsChar
    if title.isPrefixOf afterWs then
      let tl := afterWs.drop title.length
      let run := tl.takeWhile wsChar
      match run.reverse.findIdx? (fun c => c == '\n') with
      | some i => some (tl.drop (run.length - i))
      | none => none
    else none
  | _ => none

/-- `re.search` for the heading part: leftmost position at which
`matchHeadingAt` succeeds. -/
def findHeading (title : Str) : Str → Option Str
  | [] => none
  | c :: rest =>
    match matchHeadingAt title (c :: rest) with
    | some body => some body
    | none => findHeading title rest

/-- The lookahead alternative `#+\s*(?:T1|...|Tk)\s*\n`: does a heading with
one of the given titles match at this position? -/
def headingHereAny (titles : List Str) (x : Str) : Bool :=
  titles.any (fun t => (matchHeadingAt t x).isSome)

/-- The first lookahead alternative of a section pattern: for the first four
sections a heading of one of the *later* section titles, for the `faqs`
pattern just `#+`. -/
inductive StopKind where
  | laterTitles (ts : List Str)
  | anyHash
deriving DecidableEq

def stopHere : StopKind → Str → Bool
  | .laterTitles ts, x => headingHereAny ts x
  | .anyHash, x =>
    match x with
    | '#' :: _ => true
    | _ => false

/-- The `$` lookahead alternative under `re.MULTILINE`: true at the end of the
text and immediately before any newline. -/
def dollarHere (x : Str) : Bool :=
  match x with
  | [] => true
  | c :: _ => c == '\n'

/-- The lazy group `(.*?)(?=STOP|$)` with `re.DOTALL | re.MULTILINE`: take
characters until the first position where the stop heading matches or `$`
holds (so a capture never crosses a line end). -/
def captureBody (sk : StopKind) : Str → Str
  | [] => []
  | c :: rest =>
    if stopHere sk (c :: rest) || dollarHere (c :: rest) then []
    else c :: captureBody sk rest

/-- `re.search(info["pattern"], documentation, re.DOTALL | re.MULTILINE)` and
`match.group(1)` for one section pattern. -/
def extractGroup (title : Str) (sk : StopKind) (doc : Str) : Option Str :=
  (findHeading title doc).map (captureBody sk)

def gsTitle : Str := "Getting Started Guide".data

def dmTitle : Str := "Data Models Documentation".data

def fcTitle : Str := "Flow Charts".data

def aoTitle : Str := "Architecture Overview".data

def faqTitle : Str := "FAQs".data

/-- One entry of the `sections` dict of `save_documentation` (lines 138-164),
with the pattern represented by its title and its stop lookahead. -/
structure SectionInfo where
  key : Str
  title : Str
  stop : StopKind
  required_elements : List Str
deriving DecidableEq

def gsSection : SectionInfo :=
  ⟨"getting-started".data, gsTitle,
   .laterTitles [dmTitle, fcTitle, aoTitle, faqTitle],
   ["Prerequisites".data, "Installation".data, "Configuration".data,
    "Usage".data]⟩

def dmSection : SectionInfo :=
  ⟨"data-models".data, dmTitle, .laterTitles [fcTitle, aoTitle, faqTitle],
   ["Models".data, "Schema".data, "Validation".data]⟩

def fcSection : SectionInfo :=
  ⟨"flows".data, fcTitle, .laterTitles [aoTitle, faqTitle],
   ["```mermaid".data]⟩

def aoSection : SectionInfo :=
  ⟨"architecture".data, aoTitle, .laterTitles [faqTitle],
   ["Components".data, "Design".data, "Integration".data]⟩

def faqSection : SectionInfo :=
  ⟨"faqs".data, faqTitle, .anyHash, ["Question".data, "Answer".data]⟩

def sections : List SectionInfo :=
  [gsSection, dmSection, fcSection, aoSection, faqSection]

/-- Python `str.strip()`. -/
def stripStr (x : Str) : Str :=
  ((x.dropWhile wsChar).reverse.dropWhile wsChar).reverse

/-- The placeholder template written when a section is missing or fails the
keyword check (lines 191-205). -/
def placeholderContent (info : SectionInfo) : Str :=
  "# ".data ++ info.title
  ++ "\n\nThis section requires manual documentation. The following elements are expected:\n\n".data
  ++ joinLines (info.required_elements.map (fun e => "- ".data ++ e))
  ++ "\n\nPlease add appropriate documentation covering these elements.\n\nFor reference, this section should include:\n1. Detailed explanations with code examples\n2. Diagrams where applicable\n3. Best practices and guidelines\n4. Common issues and solutions\n".data

/-- The body written for one section (lines 178-205): the validated, stripped
group with the title prepended when it does not already start with `"# "`,
or the placeholder. -/
def sectionFileContent (info : SectionInfo) (doc : Str) : Str :=
  match extractGroup info.title info.stop doc with
  | some g =>
    if info.required_elements.any
        (fun e => strIn (lowerStr e) (lowerStr g)) then
      let c := stripStr g
      if ("# ".data).isPrefixOf c then c
      else ("# ".data) ++ info.title ++ "\n\n".data ++ c
    else placeholderContent info
  | none => placeholderContent info

/-- The index `docs/README.md` content (lines 167-169). -/
def indexContent : Str :=
  sections.foldl
    (fun acc info =>
      acc ++ "- [".data ++ info.title ++ "](".data ++ info.key
        ++ "/README.md)\n".data)
    "# Documentation\n\n".data

/-- `os.path.join` for the relative second arguments used here. -/
def pathJoin (a b : Str) : Str :=
  match b with
  | '/' :: _ => b
  | _ =>
    if a = [] then b
    else if a.getLast? = some '/' then a ++ b
    else a ++ '/' :: b

/-- The six file writes performed by `save_documentation`, in program order:
the index first, then one file per section. -/
def writesOf (docs_dir doc : Str) : List (Str × Str) :=
  (pathJoin docs_dir ("README.md".data), indexContent)
    :: sections.map (fun info =>
        (pathJoin (pathJoin docs_dir info.key) "README.md".data,
         sectionFileContent info doc))

/-- Sequential writes under a failure oracle: `failAt i = true` means the
`i`-th `open(...).write` raises.  Returns the overall boolean and the files
actually written (those before the first failure). -/
def runWrites (failAt : Nat → Bool) : Nat → List (Str × Str) → Bool × List (Str × Str)
  | _, [] => (true, [])
  | i, w :: ws =>
    if failAt i then (false, [])
    else
      let r := runWrites failAt (i + 1) ws
      (r.1, w :: r.2)

/-- `save_documentation` (documentation.py lines 134-211): the `try` body
performs the writes in order; the `except` clause turns any raise into the
return value `False`, and `True` is returned when nothing raises. -/
def save_documentation (docs_dir doc : Str) (failAt : Nat → Bool) :
    Bool × List (Str × Str) :=
  runWrites failAt 0 (writesOf docs_dir doc)

/-- The contribution of one walked file to the source list. -/
def srcSample (f : FSFile) : Option SampledFile :=
  if f.dirParts.any startsWithDot then none
  else
    match f.content with
    | none => none
    | some c => if isSourcePath f.relPath then some ⟨f.relPath, c⟩ else none

/-- The contribution of one walked file to the config list. -/
def cfgSample (f : FSFile) : Option SampledFile :=
  if f.dirParts.any startsWithDot then none
  else
    match f.content with
    | none => none
    | some c =>
      if isSourcePath f.relPath then none
      else if isConfigPath f.relPath then some ⟨f.relPath, c⟩ else none

/-- The contribution of one walked file to the readme list. -/
def rdmSample (f : FSFile) : Option SampledFile :=
  if f.dirParts.any startsWithDot then none
  else
    match f.content with
    | none => none
    | some c =>
      if isSourcePath f.relPath then none
      else if isConfigPath f.relPath then none
      else if isReadmeName f.name then some ⟨f.relPath, c⟩ else none

theorem collectFiles_eq (tree : List FSFile) :
    collectFiles tree =
      ⟨tree.filterMap srcSample, tree.filterMap cfgSample,
       tree.filterMap rdmSample⟩ := by
  induction tree with
  | nil => rfl
  | cons f rest ih =>
    by_cases h1 : f.dirParts.any startsWithDot = true
    · simp [collectFiles, ih, srcSample, cfgSample, rdmSample, h1]
    · rcases hc : f.content with _ | c
      · simp [collectFiles, ih, srcSample, cfgSample, rdmSample, h1, hc]
      · by_cases h2 : isSourcePath f.relPath = true
        · simp [collectFiles, ih, srcSample, cfgSample, rdmSample, h1, hc, h2]
        · by_cases h3 : isConfigPath f.relPath = true
          · simp [collectFiles, ih, srcSample, cfgSample, rdmSample,
              h1, hc, h2, h3]
          · by_cases h4 : isReadmeName f.name = true
            · simp [collectFiles, ih, srcSample, cfgSample, rdmSample,
                h1, hc, h2, h3, h4]
            · simp [collectFiles, ih, srcSample, cfgSample, rdmSample,
                h1, hc, h2, h3, h4]

theorem srcSample_path {f : FSFile} {x : SampledFile}
    (h : srcSample f = some x) : isSourcePath x.path = true := by
  unfold srcSample at h
  split at h
  · exact absurd h (by simp)
  · split at h
    · exact absurd h (by simp)
    · split at h
      · cases h; assumption
      · exact absurd h (by simp)

theorem cfgSample_path {f : FSFile} {x : SampledFile}
    (h : cfgSample f = some x) :
    isSourcePath x.path = false ∧ isConfigPath x.path = true := by
  unfold cfgSample at h
  split at h
  · exact absurd h (by simp)
  · split at h
    · exact absurd h (by simp)
    · split at h
      · exact absurd h (by simp)
      · split at h
        · cases h
          constructor <;> simp_all
        · exact absurd h (by simp)

theorem rdmSample_path {f : FSFile} {x : SampledFile}
    (h : rdmSample f = some x) :
    isSourcePath x.path = false ∧ isConfigPath x.path = false := by
  unfold rdmSample at h
  split at h
  · exact absurd h (by simp)
  · split at h
    · exact absurd h (by simp)
    · split at h
      · exact absurd h (by simp)
      · split at h
        · exact absurd h (by simp)
        · split at h
          · cases h
            constructor <;> simp_all
          · exact absurd h (by simp)

theorem mem_analysis_source {tree : List FSFile} {x : SampledFile} :
    x ∈ (analyze_repository tree).source_files ↔
      ∃ f ∈ tree, srcSample f = some x := by
  show x ∈ (collectFiles tree).source_files ↔ _
  rw [collectFiles_eq]
  exact List.mem_filterMap

theorem mem_analysis_config {tree : List FSFile} {x : SampledFile} :
    x ∈ (analyze_repository tree).config_files ↔
      ∃ f ∈ tree, cfgSample f = some x := by
  show x ∈ (collectFiles tree).config_files ↔ _
  rw [collectFiles_eq]
  exact List.mem_filterMap

theorem mem_analysis_readme {tree : List FSFile} {x : SampledFile} :
    x ∈ (analyze_repository tree).readme_files ↔
      ∃ f ∈ tree, rdmSample f = some x := by
  show x ∈ (collectFiles tree).readme_files ↔ _
  rw [collectFiles_eq]
  exact List.mem_filterMap

/-- C3: every text-readable sampled file lands in at most one of the three
category lists (the lists are pairwise disjoint), and when a readable,
non-hidden file matches several patterns the `if/elif/elif` chain gives
source extensions priority over configuration extensions, which have
priority over README filenames. -/
theorem C3_classification_exclusive (tree : List FSFile) (x : SampledFile) :
    (¬ (x ∈ (analyze_repository tree).source_files ∧
        x ∈ (analyze_repository tree).config_files))
  ∧ (¬ (x ∈ (analyze_repository tree).source_files ∧
        x ∈ (analyze_repository tree).readme_files))
  ∧ (¬ (x ∈ (analyze_repository tree).config_files ∧
        x ∈ (analyze_repository tree).readme_files))
  ∧ (∀ f ∈ tree, f.dirParts.any startsWithDot = false →
      ∀ c, f.content = some c →
      ((isSourcePath f.relPath = true →
          (⟨f.relPath, c⟩ : SampledFile) ∈ (analyze_repository tree).source_files)
       ∧ (isSourcePath f.relPath = false → isConfigPath f.relPath = true →
          (⟨f.relPath, c⟩ : SampledFile) ∈ (analyze_repository tree).config_files)
       ∧ (isSourcePath f.relPath = false → isConfigPath f.relPath = false →
          isReadmeName f.name = true →
          (⟨f.relPath, c⟩ : SampledFile) ∈ (analyze_repository tree).readme_files))) := by
  refine ⟨?_, ?_, ?_, ?_⟩
  · rintro ⟨hs, hc⟩
    obtain ⟨f, _, hsf⟩ := mem_analysis_source.mp hs
    obtain ⟨g, _, hcg⟩ := mem_analysis_config.mp hc
    have h1 := srcSample_path hsf
    have h2 := (cfgSample_path hcg).1
    rw [h1] at h2
    exact absurd h2 (by decide)
  · rintro ⟨hs, hr⟩
    obtain ⟨f, _, hsf⟩ := mem_analysis_source.mp hs
    obtain ⟨g, _, hrg⟩ := mem_analysis_readme.mp hr
    have h1 := srcSample_path hsf
    have h2 := (rdmSample_path hrg).1
    rw [h1] at h2
    exact absurd h2 (by decide)
  · rintro ⟨hc, hr⟩
    obtain ⟨f, _, hcf⟩ := mem_analysis_config.mp hc
    obtain ⟨g, _, hrg⟩ := mem_analysis_readme.mp hr
    have h1 := (cfgSample_path hcf).2
    have h2 := (rdmSample_path hrg).2
    rw [h1] at h2
    exact absurd h2 (by decide)
  · intro f hf hdot c hcont
    refine ⟨?_, ?_, ?_⟩
    · intro hsrc
      exact mem_analysis_source.mpr
        ⟨f, hf, by simp [srcSample, hdot, hcont, hsrc]⟩
    · intro hsrc hcfg
      exact mem_analysis_config.mpr
        ⟨f, hf, by simp [cfgSample, hdot, hcont, hsrc, hcfg]⟩
    · intro hsrc hcfg hrdm
      exact mem_analysis_readme.mpr
        ⟨f, hf, by simp [rdmSample, hdot, hcont, hsrc, hcfg, hrdm]⟩

def witTree : List FSFile :=
  [⟨[], "app.py".data, "app.py".data, some ("code".data)⟩,
   ⟨[], "cfg.json".data, "cfg.json".data, some ("x".data)⟩,
   ⟨[], "README.md".data, "README.md".data, some ("# Demo".data)⟩]

theorem C3_classification_exclusive_witness :
    (⟨"app.py".data, "code".data⟩ : SampledFile)
        ∈ (analyze_repository witTree).source_files
  ∧ ¬ ((⟨"app.py".data, "code".data⟩ : SampledFile)
          ∈ (analyze_repository witTree).source_files
      ∧ (⟨"app.py".data, "code".data⟩ : SampledFile)
          ∈ (analyze_repository witTree).config_files) := by
  have h := C3_classification_exclusive witTree ⟨"app.py".data, "code".data⟩
  have hm := (h.2.2.2 ⟨[], "app.py".data, "app.py".data, some ("code".data)⟩
    (by decide) (by decide) "code".data rfl).1 (by decide)
  exact ⟨hm, h.1⟩

theorem suffix_getLast {p x : Str} (h : p <:+ x) (hne : p ≠ []) :
    x.getLast? = p.getLast? := by
  obtain ⟨t, ht⟩ := h
  rw [← ht]
  exact List.getLast?_append_of_ne_nil t hne

/-- C9: `has_docker` is unsatisfiable: a path classified as configuration
ends with one of the six config extensions, whose last characters are all
different from the last character of `"Dockerfile"`, so the flag is `false`
on every file tree. -/
theorem C9_has_docker_always_false (tree : List FSFile) :
    (analyze_repository tree).project_structure.has_docker = false := by
  show ((collectFiles tree).config_files.any
      (fun f => "Dockerfile".data.isSuffixOf f.path)) = false
  rw [List.any_eq_false]
  intro x hx
  rw [show (collectFiles tree).config_files
      = (analyze_repository tree).config_files from rfl] at hx
  obtain ⟨f, _, hcf⟩ := mem_analysis_config.mp hx
  have h2 := (cfgSample_path hcf).2
  rw [isConfigPath, List.any_eq_true] at h2
  obtain ⟨p, hp, hsuf⟩ := h2
  intro hdock
  have hd := suffix_getLast (List.isSuffixOf_iff_suffix.mp hdock) (by decide)
  fin_cases hp <;>
  · have e1 := suffix_getLast (List.isSuffixOf_iff_suffix.mp hsuf) (by decide)
    rw [hd] at e1
    exact absurd e1 (by decide)

/-- C10: the hidden-path exclusion looks only at the directory's path
segments, never at the file name: a file in a directory with a dot-prefixed
segment contributes nothing to the analysis, while a dot-prefixed *file*
(here `.env`) in a clean directory is read and classified as configuration
like any other file. -/
theorem C10_hidden_dir_exclusion :
    (∀ (f : FSFile) (rest : List FSFile), f.dirParts.any startsWithDot = true →
        analyze_repository (f :: rest) = analyze_repository rest)
  ∧ (∀ (dirs : List Str) (rest : List FSFile) (c : Str),
        dirs.any startsWithDot = false →
        (analyze_repository
            (⟨dirs, ".env".data, ".env".data, some c⟩ :: rest)).config_files
          = ⟨".env".data, c⟩ :: (analyze_repository rest).config_files) := by
  constructor
  · intro f rest h
    have hc : collectFiles (f :: rest) = collectFiles rest := by
      simp [collectFiles, h]
    simp [analyze_repository, hc]
  · intro dirs rest c h
    show (collectFiles (⟨dirs, ".env".data, ".env".data, some c⟩ :: rest)).config_files
        = ⟨".env".data, c⟩ :: (collectFiles rest).config_files
    have h2 : isSourcePath (".env".data) = false := by decide
    have h3 : isConfigPath (".env".data) = true := by decide
    simp [collectFiles, h, h2, h3]

theorem C10_hidden_dir_exclusion_witness :
    analyze_repository
        [⟨[".git".data], "cfg.json".data, ".git/cfg.json".data, some ("x".data)⟩]
      = analyze_repository []
  ∧ (analyze_repository
        [⟨[], ".env".data, ".env".data, some ("A=1".data)⟩]).config_files
      = [⟨".env".data, "A=1".data⟩] := by
  have h := C10_hidden_dir_exclusion
  refine ⟨h.1 _ [] (by decide), ?_⟩
  have h2 := h.2 [] [] "A=1".data (by decide)
  exact h2

theorem findRootReadme_eq_find (rs : List SampledFile) :
    findRootReadme rs = rs.find? (fun r => r.path == "README.md".data) := by
  induction rs with
  | nil => rfl
  | cons r rest ih =>
    by_cases h : r.path = "README.md".data
    · have hb : (r.path == "README.md".data) = true := beq_iff_eq.mpr h
      simp [findRootReadme, List.find?, h, hb]
    · have hb : (r.path == "README.md".data) = false := beq_eq_false_iff_ne.mpr h
      simp [findRootReadme, List.find?, h, hb, ih]

/-- C6: the main README is the README-classified file whose relative path is
exactly `README.md` when one exists (first such in traversal order),
otherwise the first README-classified file in traversal order, otherwise the
sentinel whose content is `"No README found"`. -/
theorem C6_main_readme_selection (tree : List FSFile) :
    (analyze_repository tree).main_readme =
      (match (analyze_repository tree).readme_files.find?
          (fun r => r.path == "README.md".data) with
       | some r => MainReadme.file r
       | none =>
         match (analyze_repository tree).readme_files with
         | r :: _ => MainReadme.file r
         | [] => MainReadme.sentinel)
  ∧ mainReadmeContent MainReadme.sentinel = "No README found".data := by
  constructor
  · show mainReadmeOf (collectFiles tree).readme_files = _
    unfold mainReadmeOf
    rw [findRootReadme_eq_find]
    rfl
  · rfl

/-- `tech_counts.get(t, 0)`: the count bound to `t`, or 0. -/
def countTech (m : List (Str × Nat)) (t : Str) : Nat :=
  match m.find? (fun kv => kv.1 == t) with
  | some kv => kv.2
  | none => 0

theorem countTech_bump (m : List (Str × Nat)) (k t : Str) :
    countTech (bumpTech m k) t = countTech m t + (if k = t then 1 else 0) := by
  induction m with
  | nil =>
    by_cases h : k = t
    · have hb : (k == t) = true := beq_iff_eq.mpr h
      simp [bumpTech, countTech, List.find?, hb, h]
    · have hb : (k == t) = false := beq_eq_false_iff_ne.mpr h
      simp [bumpTech, countTech, List.find?, hb, h]
  | cons kv rest ih =>
    obtain ⟨k', c⟩ := kv
    by_cases h1 : k' = k
    · subst h1
      by_cases h2 : k' = t
      · have hb : (k' == t) = true := beq_iff_eq.mpr h2
        simp [bumpTech, countTech, List.find?, hb, h2]
      · have hb : (k' == t) = false := beq_eq_false_iff_ne.mpr h2
        simp [bumpTech, countTech, List.find?, hb, h2]
    · by_cases h2 : k' = t
      · have hb : (k' == t) = true := beq_iff_eq.mpr h2
        have hk : k ≠ t := fun he => h1 (h2.trans he.symm)
        simp [bumpTech, countTech, List.find?, hb, h1, hk]
      · have hb : (k' == t) = false := beq_eq_false_iff_ne.mpr h2
        have := ih
        simp only [bumpTech, if_neg h1]
        simp only [countTech, List.find?, hb]
        exact ih

theorem countTech_tally (files : List SampledFile) :
    ∀ (m : List (Str × Nat)) (t : Str),
    countTech
        (files.foldl (fun m f =>
          match techOf (splitextExt f.path) with
          | some t' => bumpTech m t'
          | none => m) m) t
      = countTech m t
        + files.countP (fun f => techOf (splitextExt f.path) == some t) := by
  induction files with
  | nil => intro m t; simp
  | cons f fs ih =>
    intro m t
    rw [List.foldl_cons, List.countP_cons]
    rcases hf : techOf (splitextExt f.path) with _ | t'
    · simp only [hf]
      rw [ih]
      simp [hf]
    · simp only [hf]
      rw [ih, countTech_bump]
      by_cases h : t' = t
      · have hb : (some t' == some t) = true := beq_iff_eq.mpr (by rw [h])
        simp only [hf, hb, if_pos h, if_pos]
        omega
      · have hb : (some t' == some t) = false :=
          beq_eq_false_iff_ne.mpr (by simp [h])
        simp [hf, hb, h]

theorem tally_nil_of_none (files : List SampledFile)
    (h : ∀ f ∈ files, techOf (splitextExt f.path) = none) :
    tallyTech files = [] := by
  induction files with
  | nil => rfl
  | cons f fs ih =>
    have hf := h f (by simp)
    show ((f :: fs).foldl _ []) = []
    rw [List.foldl_cons]
    simp only [hf]
    exact ih (fun g hg => h g (by simp [hg]))

theorem maxByCount_spec (rest : List (Str × Nat)) : ∀ (x : Str × Nat),
    ∃ pre post,
      x :: rest = pre ++ maxByCount x rest :: post
      ∧ (∀ e ∈ x :: rest, e.2 ≤ (maxByCount x rest).2)
      ∧ (∀ e ∈ pre, e.2 < (maxByCount x rest).2) := by
  induction rest with
  | nil =>
    intro x
    refine ⟨[], [], rfl, ?_, by simp⟩
    intro e he
    rcases List.mem_cons.mp he with rfl | he'
    · exact le_refl _
    · simp at he'
  | cons y rest' ih =>
    intro x
    have hstep : maxByCount x (y :: rest')
        = maxByCount (if x.2 < y.2 then y else x) rest' := rfl
    by_cases hxy : x.2 < y.2
    · rw [if_pos hxy] at hstep
      obtain ⟨pre', post', heq, hle, hlt⟩ := ih y
      refine ⟨x :: pre', post', ?_, ?_, ?_⟩
      · rw [hstep]
        exact congrArg (x :: ·) heq
      · intro e he
        rw [hstep]
        rcases List.mem_cons.mp he with rfl | he'
        · exact le_of_lt (lt_of_lt_of_le hxy (hle y (List.mem_cons_self y rest')))
        · exact hle e he'
      · intro e he
        rw [hstep]
        rcases List.mem_cons.mp he with rfl | he'
        · exact lt_of_lt_of_le hxy (hle y (List.mem_cons_self y rest'))
        · exact hlt e he'
    · rw [if_neg hxy] at hstep
      have hyx : y.2 ≤ x.2 := Nat.le_of_not_lt hxy
      obtain ⟨pre', post', heq, hle, hlt⟩ := ih x
      cases pre' with
      | nil =>
        simp only [List.nil_append] at heq
        injection heq with h1 h2
        refine ⟨[], y :: rest', ?_, ?_, by simp⟩
        · rw [hstep, ← h1, h2]
          rfl
        · intro e he
          rw [hstep, ← h1]
          rcases List.mem_cons.mp he with rfl | he'
          · exact le_refl _
          · rcases List.mem_cons.mp he' with rfl | he''
            · exact hyx
            · have := hle e (List.mem_cons_of_mem x (h2 ▸ he''))
              rw [← h1] at this
              exact this
      | cons a pre'' =>
        simp only [List.cons_append] at heq
        injection heq with h1 h2
        refine ⟨x :: y :: pre'', post', ?_, ?_, ?_⟩
        · rw [hstep]
          simp only [List.cons_append]
          exact congrArg (x :: ·) (congrArg (y :: ·) h2)
        · intro e he
          rw [hstep]
          rcases List.mem_cons.mp he with rfl | he'
          · exact hle e (List.mem_cons_self e rest')
          · rcases List.mem_cons.mp he' with rfl | he''
            · exact le_trans hyx (hle x (List.mem_cons_self x rest'))
            · exact hle e (List.mem_cons_of_mem x he'')
        · intro e he
          rw [hstep]
          rcases List.mem_cons.mp he with rfl | he'
          · have := hlt a (by simp)
            rw [← h1] at this
            exact this
          · rcases List.mem_cons.mp he' with rfl | he''
            · have hx := hlt a (by simp)
              rw [← h1] at hx
              exact lt_of_le_of_lt hyx hx
            · exact hlt e (List.mem_cons_of_mem a he'')

/-- C4: `detect_main_technology` counts files per fixed extension-to-technology
mapping into an insertion-ordered mapping and returns the stable argmax (the
highest file count, ties broken in favour of the binding occurring earlier in
the insertion-ordered mapping); it returns `"Unknown"` for the empty sequence
and when no file has a mapped extension. -/
theorem C4_detect_main_technology (files : List SampledFile) :
    (∀ t, countTech (tallyTech files) t
        = (files.filter (fun f => techOf (splitextExt f.path) == some t)).length)
  ∧ (tallyTech files = [] → detect_main_technology files = "Unknown".data)
  ∧ (files = [] → detect_main_technology files = "Unknown".data)
  ∧ ((∀ f ∈ files, techOf (splitextExt f.path) = none) →
      detect_main_technology files = "Unknown".data)
  ∧ (∀ x rest, tallyTech files = x :: rest →
      ∃ c pre post,
        tallyTech files = pre ++ (detect_main_technology files, c) :: post
        ∧ (∀ e ∈ tallyTech files, e.2 ≤ c)
        ∧ (∀ e ∈ pre, e.2 < c)) := by
  refine ⟨?_, ?_, ?_, ?_, ?_⟩
  · intro t
    rw [← List.countP_eq_length_filter]
    have h := countTech_tally files [] t
    simpa [countTech, List.find?] using h
  · intro h
    unfold detect_main_technology
    rw [h]
  · intro h
    subst h
    rfl
  · intro h
    unfold detect_main_technology
    rw [tally_nil_of_none files h]
  · intro x rest h
    obtain ⟨pre, post, heq, hle, hlt⟩ := maxByCount_spec rest x
    refine ⟨(maxByCount x rest).2, pre, post, ?_, ?_, ?_⟩
    · rw [h, heq]
      have hd : detect_main_technology files = (maxByCount x rest).1 := by
        unfold detect_main_technology
        rw [h]
      rw [hd]
    · intro e he
      rw [h] at he
      exact hle e he
    · exact hlt

def wit4files : List SampledFile :=
  [⟨"a.py".data, [].append []⟩, ⟨"b.js".data, []⟩, ⟨"c.js".data, []⟩]

theorem C4_detect_main_technology_witness :
    tallyTech wit4files
        = [("Python".data, 1), ("JavaScript".data, 2)]
  ∧ ∃ c pre post,
      tallyTech wit4files = pre ++ (detect_main_technology wit4files, c) :: post
      ∧ (∀ e ∈ tallyTech wit4files, e.2 ≤ c)
      ∧ (∀ e ∈ pre, e.2 < c) := by
  have h := C4_detect_main_technology wit4files
  refine ⟨by decide, ?_⟩
  exact h.2.2.2.2 ("Python".data, 1) [("JavaScript".data, 2)] (by decide)

theorem foldl_append_eq (g : SampledFile → Str) (l : List SampledFile) :
    ∀ init : Str,
      l.foldl (fun acc f => acc ++ g f) init = init ++ (l.map g).flatten := by
  induction l with
  | nil => intro init; simp
  | cons f fs ih =>
    intro init
    simp [List.foldl_cons, ih, List.append_assoc]

theorem join_split (g : SampledFile → Str) {f : SampledFile}
    {l : List SampledFile} (hf : f ∈ l) :
    ∃ u v, (l.map g).flatten = u ++ g f ++ v := by
  induction l with
  | nil => simp at hf
  | cons a fs ih =>
    rcases List.mem_cons.mp hf with rfl | hf'
    · exact ⟨[], (fs.map g).flatten, by simp⟩
    · obtain ⟨u, v, huv⟩ := ih hf'
      exact ⟨g a ++ u, v, by simp [huv, List.append_assoc]⟩

theorem prompt_shape (n : Str) (a : Analysis) :
    create_documentation_prompt n a
      = promptHeader n a ++ (a.source_files.map sourceSnippet).flatten
        ++ "\n## Configuration Files\n".data
        ++ (a.config_files.map configSnippet).flatten ++ promptTail := by
  unfold create_documentation_prompt
  simp only [foldl_append_eq]

/-- C5: `create_documentation_prompt` is a deterministic pure function of its
inputs, and the embedded excerpt of every interest-keyword source file is
exactly the first 3000 characters of its content (1500 for every
configuration file), with the ellipsis marker `"..."` present iff the
original content is longer than the truncation bound. -/
theorem C5_prompt_deterministic_truncation :
    (∀ (n₁ n₂ : Str) (a₁ a₂ : Analysis), n₁ = n₂ → a₁ = a₂ →
        create_documentation_prompt n₁ a₁ = create_documentation_prompt n₂ a₂)
  ∧ (∀ (n : Str) (a : Analysis) (f : SampledFile), f ∈ a.source_files →
      isInterestFile f = true →
      ∃ u v ell, create_documentation_prompt n a
          = u ++ ("\n### ".data ++ f.path ++ "\n```\n".data
              ++ f.content.take 3000 ++ ell ++ "\n```\n".data) ++ v
        ∧ ((3000 < f.content.length ∧ ell = "...".data)
           ∨ (f.content.length ≤ 3000 ∧ ell = [])))
  ∧ (∀ (n : Str) (a : Analysis) (f : SampledFile), f ∈ a.config_files →
      ∃ u v ell, create_documentation_prompt n a
          = u ++ ("\n### ".data ++ f.path ++ "\n```\n".data
              ++ f.content.take 1500 ++ ell ++ "\n```\n".data) ++ v
        ∧ ((1500 < f.content.length ∧ ell = "...".data)
           ∨ (f.content.length ≤ 1500 ∧ ell = []))) := by
  refine ⟨?_, ?_, ?_⟩
  · intro n₁ n₂ a₁ a₂ h1 h2
    subst h1
    subst h2
    rfl
  · intro n a f hf hint
    obtain ⟨u, v, huv⟩ := join_split sourceSnippet hf
    have hsnip : sourceSnippet f
        = "\n### ".data ++ f.path ++ "\n```\n".data ++ f.content.take 3000
          ++ (if 3000 < f.content.length then ("...".data) else [])
          ++ "\n```\n".data := by
      simp [sourceSnippet, hint]
    refine ⟨promptHeader n a ++ u,
      v ++ "\n## Configuration Files\n".data
        ++ (a.config_files.map configSnippet).flatten ++ promptTail,
      (if 3000 < f.content.length then ("...".data) else []), ?_, ?_⟩
    · rw [prompt_shape, huv, hsnip]
      simp [List.append_assoc]
    · by_cases h3 : 3000 < f.content.length
      · exact Or.inl ⟨h3, by rw [if_pos h3]⟩
      · exact Or.inr ⟨Nat.le_of_not_lt h3, by rw [if_neg h3]⟩
  · intro n a f hf
    obtain ⟨u, v, huv⟩ := join_split configSnippet hf
    have hsnip : configSnippet f
        = "\n### ".data ++ f.path ++ "\n```\n".data ++ f.content.take 1500
          ++ (if 1500 < f.content.length then ("...".data) else [])
          ++ "\n```\n".data := by
      simp [configSnippet]
    refine ⟨promptHeader n a ++ (a.source_files.map sourceSnippet).flatten
        ++ "\n## Configuration Files\n".data ++ u,
      v ++ promptTail,
      (if 1500 < f.content.length then ("...".data) else []), ?_, ?_⟩
    · rw [prompt_shape, huv, hsnip]
      simp [List.append_assoc]
    · by_cases h3 : 1500 < f.content.length
      · exact Or.inl ⟨h3, by rw [if_pos h3]⟩
      · exact Or.inr ⟨Nat.le_of_not_lt h3, by rw [if_neg h3]⟩

def wit5src : SampledFile := ⟨"main.py".data, "print(1)".data⟩

def wit5analysis : Analysis :=
  analyze_repository
    [⟨[], "main.py".data, "main.py".data, some ("print(1)".data)⟩,
     ⟨[], "cfg.json".data, "cfg.json".data, some ("x".data)⟩]

theorem C5_prompt_deterministic_truncation_witness :
    wit5src ∈ wit5analysis.source_files ∧ isInterestFile wit5src = true
  ∧ ∃ u v ell, create_documentation_prompt ("demo".data) wit5analysis
        = u ++ ("\n### ".data ++ wit5src.path ++ "\n```\n".data
            ++ wit5src.content.take 3000 ++ ell ++ "\n```\n".data) ++ v
      ∧ ((3000 < wit5src.content.length ∧ ell = "...".data)
         ∨ (wit5src.content.length ≤ 3000 ∧ ell = [])) := by
  refine ⟨by decide, by decide, ?_⟩
  exact C5_prompt_deterministic_truncation.2.1 ("demo".data) wit5analysis wit5src
    (by decide) (by decide)

theorem runWrites_noFail (failAt : Nat → Bool) (h : ∀ i, failAt i = false) :
    ∀ (ws : List (Str × Str)) (i : Nat), runWrites failAt i ws = (true, ws) := by
  intro ws
  induction ws with
  | nil => intro i; rfl
  | cons w ws' ih =>
    intro i
    simp [runWrites, h i, ih (i + 1)]

theorem runWrites_true_iff (failAt : Nat → Bool) :
    ∀ (ws : List (Str × Str)) (i : Nat),
      (runWrites failAt i ws).1 = true
        ↔ ∀ j < ws.length, failAt (i + j) = false := by
  intro ws
  induction ws with
  | nil => intro i; simp [runWrites]
  | cons w ws' ih =>
    intro i
    cases hf : failAt i with
    | false =>
      simp only [runWrites, hf, Bool.false_eq_true, if_false]
      rw [ih (i + 1)]
      constructor
      · intro hall j hj
        cases j with
        | zero => simpa using hf
        | succ j' =>
          have hh := hall j' (by simpa using Nat.lt_of_succ_lt_succ hj)
          rw [← hh]
          congr 1
          omega
      · intro hall j hj
        have hh := hall (j + 1) (by simpa using Nat.succ_lt_succ hj)
        rw [← hh]
        congr 1
        omega
    | true =>
      simp only [runWrites, hf, if_true]
      constructor
      · intro hh
        exact absurd hh (by simp)
      · intro hall
        have h0 := hall 0 (by simp)
        rw [Nat.add_zero, hf] at h0
        exact absurd h0 (by simp)

/-- C7: when no write fails, the index file `docs/README.md` is the first
file written, and its content links all five section files, whatever the
input text was. -/
theorem C7_index_always_written (docs_dir doc : Str) (failAt : Nat → Bool)
    (h : ∀ i, failAt i = false) :
    (save_documentation docs_dir doc failAt).2.head?
        = some (pathJoin docs_dir ("README.md".data), indexContent)
  ∧ (∀ info ∈ sections,
      strIn ("- [".data ++ info.title ++ "](".data ++ info.key
        ++ "/README.md)\n".data) indexContent = true) := by
  constructor
  · unfold save_documentation
    rw [runWrites_noFail failAt h]
    rfl
  · intro info hinfo
    fin_cases hinfo <;> decide

theorem C7_index_always_written_witness :
    (save_documentation ("docs".data) "text".data (fun _ => false)).2.head?
      = some (pathJoin ("docs".data) "README.md".data, indexContent) := by
  exact (C7_index_always_written ("docs".data) "text".data (fun _ => false)
    (fun _ => rfl)).1

/-- C8: `save_documentation` never lets an exception escape: it returns
`true` exactly when none of its six writes raises, and `false` as soon as
any attempted write raises. -/
theorem C8_save_documentation_boundary (docs_dir doc : Str)
    (failAt : Nat → Bool) :
    ((save_documentation docs_dir doc failAt).1 = true
      ↔ ∀ j < (writesOf docs_dir doc).length, failAt j = false)
  ∧ (writesOf docs_dir doc).length = 6 := by
  constructor
  · unfold save_documentation
    have h := runWrites_true_iff failAt (writesOf docs_dir doc) 0
    simpa using h
  · rfl

theorem C8_save_documentation_boundary_witness :
    (save_documentation ("docs".data) "text".data (fun k => decide (k = 3))).1
        = false
  ∧ (save_documentation ("docs".data) "text".data (fun _ => false)).1 = true := by
  have h1 := C8_save_documentation_boundary ("docs".data) "text".data
    (fun k => decide (k = 3))
  have h2 := C8_save_documentation_boundary ("docs".data) "text".data
    (fun _ => false)
  constructor
  · cases hb : (save_documentation ("docs".data) "text".data
        (fun k => decide (k = 3))).1 with
    | false => rfl
    | true =>
      have hall := h1.1.mp hb
      have h3 := hall 3 (by rw [h1.2]; omega)
      exact absurd h3 (by decide)
  · exact h2.1.mpr (fun j hj => rfl)

theorem matchHeadingAt_cons_ne {t : Str} {c : Char} {rest : Str}
    (h : ¬(c = '#')) : matchHeadingAt t (c :: rest) = none := by
  unfold matchHeadingAt
  split
  · next heq =>
    injection heq with h1 _
    exact absurd h1 h
  · rfl

theorem findHeading_cons_none {t : Str} {c : Char} {rest : Str}
    (h : matchHeadingAt t (c :: rest) = none) :
    findHeading t (c :: rest) = findHeading t rest := by
  conv =>
    left
    rw [findHeading]
  rw [h]

/-- The failure header written by `generate_documentation` can never host a
section heading: a heading of one of the five section titles occurs in the
failure document iff it occurs in the error description itself. -/
theorem findHeading_failDoc {t : Str}
    (ht : t ∈ [gsTitle, dmTitle, fcTitle, aoTitle, faqTitle]) (e : Str)
    (he : findHeading t e = none) :
    findHeading t ("# Documentation Generation Failed\n\nError: ".data ++ e)
      = none := by
  have hchars : "# Documentation Generation Failed\n\nError: ".data
      = ['#', ' ', 'D', 'o', 'c', 'u', 'm', 'e', 'n', 't', 'a', 't', 'i', 'o',
         'n', ' ', 'G', 'e', 'n', 'e', 'r', 'a', 't', 'i', 'o', 'n', ' ', 'F',
         'a', 'i', 'l', 'e', 'd', '\n', '\n', 'E', 'r', 'r', 'o', 'r', ':',
         ' '] := rfl
  rw [hchars]
  simp only [List.cons_append, List.nil_append]
  have h0 : ∀ z : Str,
      matchHeadingAt t ('#' :: ' ' :: 'D' :: 'o' :: z) = none := by
    intro z
    fin_cases ht <;>
      simp +decide [matchHeadingAt, wsChar, gsTitle, dmTitle, fcTitle,
        aoTitle, faqTitle, List.isPrefixOf, List.dropWhile]
  rw [findHeading_cons_none (h0 _)]
  repeat rw [findHeading_cons_none (matchHeadingAt_cons_ne (by decide))]
  exact he

theorem isPrefixOf_append_self : ∀ (l t : Str), l.isPrefixOf (l ++ t) = true
  | [], _ => by simp [List.isPrefixOf]
  | c :: l', t => by
    simp [List.isPrefixOf, isPrefixOf_append_self l' t]

/-- C2 (amended): on a collaborator failure with description `e`,
`generate_documentation` propagates nothing and returns the non-empty
Markdown document `"# Documentation Generation Failed\n\nError: " + e`;
feeding that text to `save_documentation` produces the placeholder file for
each of the five sections, provided the error description `e` does not
itself contain a heading matching one of the five section titles. -/
theorem C2_generation_failure_fallback (e : Str) :
    (generate_documentation (Except.error e)
        = "# Documentation Generation Failed\n\nError: ".data ++ e)
  ∧ ("# Documentation Generation Failed".data.isPrefixOf
        (generate_documentation (Except.error e)) = true)
  ∧ (∀ docs_dir : Str,
      (∀ info ∈ sections, findHeading info.title e = none) →
      (save_documentation docs_dir (generate_documentation (Except.error e))
          (fun _ => false)).2
        = (pathJoin docs_dir ("README.md".data), indexContent)
          :: sections.map (fun info =>
              (pathJoin (pathJoin docs_dir info.key) "README.md".data,
               placeholderContent info))) := by
  refine ⟨rfl, ?_, ?_⟩
  · show ("# Documentation Generation Failed".data).isPrefixOf
        ("# Documentation Generation Failed\n\nError: ".data ++ e) = true
    have hsplit : "# Documentation Generation Failed\n\nError: ".data ++ e
        = "# Documentation Generation Failed".data
          ++ ("\n\nError: ".data ++ e) := rfl
    rw [hsplit]
    exact isPrefixOf_append_self _ _
  · intro dir hnone
    unfold save_documentation
    rw [runWrites_noFail _ (fun _ => rfl)]
    show writesOf dir (generate_documentation (Except.error e)) = _
    unfold writesOf
    refine congrArg (_ :: ·) (List.map_congr_left ?_)
    intro info hinfo
    have htmem : info.title ∈ [gsTitle, dmTitle, fcTitle, aoTitle, faqTitle] := by
      fin_cases hinfo <;> simp [gsSection, dmSection, fcSection, aoSection,
        faqSection, sections]
    have hfh : findHeading info.title
        (generate_documentation (Except.error e)) = none :=
      findHeading_failDoc htmem e (hnone info hinfo)
    have hcontent : sectionFileContent info
        (generate_documentation (Except.error e)) = placeholderContent info := by
      unfold sectionFileContent extractGroup
      rw [hfh]
      rfl
    rw [hcontent]

theorem C2_generation_failure_fallback_witness :
    (save_documentation ("docs".data)
        (generate_documentation (Except.error ("timeout".data)))
        (fun _ => false)).2
      = (pathJoin ("docs".data) "README.md".data, indexContent)
        :: sections.map (fun info =>
            (pathJoin (pathJoin ("docs".data) info.key) "README.md".data,
             placeholderContent info)) := by
  exact (C2_generation_failure_fallback ("timeout".data)).2.2 "docs".data
    (by decide)

/-- C2 counterexample: the claim as stated fails for the error description
`"# FAQs\nQuestion: why"`: the failure document then contains a FAQs heading,
the FAQs section validates (its captured body contains `Question`), and the
written `faqs` file is extracted content, not the placeholder of any
section. -/
theorem C2_generation_failure_counterexample :
    (save_documentation ("docs".data)
        (generate_documentation (Except.error ("# FAQs\nQuestion: why".data)))
        (fun _ => false)).2.getLast?
      = some (pathJoin (pathJoin ("docs".data) "faqs".data) "README.md".data,
          "# FAQs\n\nQuestion: why".data)
  ∧ "# FAQs\n\nQuestion: why".data ≠ placeholderContent faqSection := by
  constructor
  · decide
  · decide

/-- The C1 failing input: all five section headings in order, each section
body containing one of its required keywords (`Prerequisites` on the second
line of the getting-started body). -/
def c1doc : Str :=
  ("# Getting Started Guide\nIntro\nPrerequisites: none\n# Data Models Documentation\nModels: A\n# Flow Charts\n```mermaid\ngraph TD\n```\n# Architecture Overview\nComponents: B\n# FAQs\nQuestion: Q\n").data

/-- C1 (code-bug evidence): on `c1doc` every section heading is found and the
keyword `Prerequisites` occurs in the getting-started body, yet the captured
group for Getting Started is only the first body line `"Intro"` — because
`re.MULTILINE` lets the `$` lookahead alternative match at every line end,
the lazy group stops at the first end of line instead of running to the next
later-section heading — so the keyword check fails and the written
`getting-started` file is the placeholder, contradicting the claim. -/
theorem C1_section_extraction_divergence :
    (∀ info ∈ sections, (findHeading info.title c1doc).isSome = true)
  ∧ strIn ("Prerequisites".data) c1doc = true
  ∧ extractGroup gsSection.title gsSection.stop c1doc = some ("Intro".data)
  ∧ sectionFileContent gsSection c1doc = placeholderContent gsSection
  ∧ (save_documentation ("docs".data) c1doc (fun _ => false)).2.get? 1
      = some (pathJoin (pathJoin ("docs".data) gsSection.key) "README.md".data,
          placeholderContent gsSection) := by
  refine ⟨by decide, by decide, by decide, by decide, by decide⟩
